import Mathlib

/-!
Verification of the transcription worker (src/worker/main.py).

Shallow embedding notes:
* Machine integers are modelled as Nat/Int.  All millisecond timestamps are
  Int, because the placeholder builder can produce negative end times
  (seg_length - 200 underflows for a small declared duration).
* Python floor division (//) on nonnegative operands coincides with Nat
  division; where an operand may be negative we use Int.fdiv, which is
  Python's // semantics.  Python int(x) applied to a nonnegative float
  quotient is a floor as well, and the collaborator-supplied times that
  reach those expressions are nonnegative.
* The network, the ASR engine and the diarization engine are opaque
  collaborators; they are modelled as explicit oracle arguments (probe
  functions, outcome values), never as stubs of the repository's own logic.
-/

/-- A transcript segment as posted to the backend
(src/worker/main.py, dicts built at lines 218-224, 247-253, 406-412, 449-455).
The random uuid id is irrelevant to every claim and is omitted from the
embedding; all remaining fields are kept. -/
structure Segment where
  idx : Nat
  startMs : Int
  endMs : Int
  text : String
deriving DecidableEq, Repr

/-- Maximal runs of non-whitespace characters.  The accumulator holds the
current word (in order); a whitespace character closes it. -/
def py_words_aux : List Char → List Char → List String
  | [], acc => if acc = [] then [] else [String.mk acc]
  | c :: cs, acc =>
      if c.isWhitespace then
        (if acc = [] then py_words_aux cs [] else String.mk acc :: py_words_aux cs [])
      else py_words_aux cs (acc ++ [c])

/-- Python text.strip().split(): whitespace-separated words, empties dropped
(src/worker/main.py line 206; the strip is redundant before an argumentless
split and the comprehension filter is likewise redundant).  Python splits on
Unicode whitespace; the embedding uses Char.isWhitespace, which agrees on
every input appearing in this development. -/
def py_words (text : String) : List String :=
  py_words_aux text.data []

/-- Python ' '.join. -/
def py_join_space : List String → String
  | [] => ""
  | [w] => w
  | w :: ws => w ++ " " ++ py_join_space ws

/-- Python string slice s[:n] (by code points). -/
def py_take (s : String) (n : Nat) : String :=
  String.mk (s.data.take n)

/-- Python ' '.join(chunk)[:500] or '…' (src/worker/main.py line 223); the
`or` falls back to '…' exactly when the truncated join is empty. -/
def join_trunc (chunk : List String) : String :=
  let t := py_take (py_join_space chunk) 500
  if t = "" then "…" else t

/-- Loop body of build_fake_segments (src/worker/main.py lines 212-225).
The Python loop `for i in range(0, len(words), chunk_size)` with the
`len(segs) >= max_segments` break is rendered with an explicit fuel
argument: fuel = max_segments - len(segs), so fuel = 0 exactly when the
cap check fires; count = len(segs) is the next idx.  chunk_size is at
least 1 at every call site (max(1, ...) at line 207). -/
def fakeAux (chunk_size : Nat) : Nat → List String → Int → Nat → List Segment
  | 0, _, _, _ => []
  | _, [], _, _ => []
  | fuel + 1, w :: ws, cursor_ms, count =>
      let chunk := (w :: ws).take chunk_size
      let start_ms := cursor_ms
      let end_ms := start_ms + (chunk.length : Int) * 320
      { idx := count, startMs := start_ms, endMs := end_ms, text := join_trunc chunk }
        :: fakeAux chunk_size fuel ((w :: ws).drop chunk_size) (end_ms + 120) (count + 1)

/-- chunk_size = max(1, int(os.getenv('SIMULATE_WORDS_PER_SEG', '8')))
(src/worker/main.py line 207). -/
def sim_chunk_size (words_per_seg : Int) : Nat :=
  (max 1 words_per_seg).toNat

/-- build_fake_segments (src/worker/main.py lines 202-226).
words_per_seg is the value of the SIMULATE_WORDS_PER_SEG environment
variable (an arbitrary Python int, default 8); the source clamps it with
max(1, ...).  per_word_ms = 320, gap 120, max_segments = 500. -/
def build_fake_segments (words_per_seg : Int) (text : String) : List Segment :=
  fakeAux (sim_chunk_size words_per_seg) 500 (py_words text) 0 0

/-- Size heuristic int((file_size_bytes / 32000.0) * 1000)
(src/worker/main.py line 240).  The float quotient times 1000 truncated to
int equals file_size_bytes * 1000 / 32000 in exact arithmetic; the double
rounding cannot move the value across an integer boundary for any size
exercised here, and no claim depends on its exact value elsewhere. -/
def size_duration_ms (file_size_bytes : Nat) : Nat :=
  file_size_bytes * 1000 / 32000

/-- duration_ms computed by build_placeholder_segments
(src/worker/main.py lines 232-241).  Python truthiness of
media.get('durationSec') means a declared value of 0 is treated as absent. -/
def placeholder_duration_ms (durationSec : Option Int) (file_size_bytes : Nat)
    (target_segments : Nat) : Int :=
  match durationSec with
  | some d => if d ≠ 0 then d * 1000
              else ((max (size_duration_ms file_size_bytes) (target_segments * 1000) : Nat) : Int)
  | none => ((max (size_duration_ms file_size_bytes) (target_segments * 1000) : Nat) : Int)

/-- seg_length = duration_ms // target_segments (src/worker/main.py line 242);
Python // is floor division, Int.fdiv. -/
def placeholder_seg_length (durationSec : Option Int) (file_size_bytes : Nat)
    (target_segments : Nat) : Int :=
  Int.fdiv (placeholder_duration_ms durationSec file_size_bytes target_segments)
    (target_segments : Int)

/-- build_placeholder_segments (src/worker/main.py lines 228-254). -/
def build_placeholder_segments (durationSec : Option Int) (file_size_bytes : Nat)
    (target_segments : Nat) : List Segment :=
  let seg_length := placeholder_seg_length durationSec file_size_bytes target_segments
  (List.range target_segments).map (fun i =>
    { idx := i
      startMs := (i : Int) * seg_length
      endMs := (i : Int) * seg_length + seg_length - 200
      text := if i < target_segments - 1
              then "Simulated segment " ++ toString (i + 1)
              else "Simulated segment final" })

-- scratch checks (removed later)

/-! ### Structural lemmas about the fake-segment builder -/

/-- The i-th word chunk words[i*C : i*C + C]. -/
def chunk_at (C : Nat) (ws : List String) (i : Nat) : List String :=
  (ws.drop (i * C)).take C

/-- Start offset (ms) of the i-th fake segment relative to the initial cursor. -/
def start_off (C : Nat) (ws : List String) : Nat → Nat
  | 0 => 0
  | i + 1 => start_off C ws i + (chunk_at C ws i).length * 320 + 120

/-! ### Segment persister: retry with backoff (src/worker/main.py lines 256-280, 337-344) -/

/-- Loop body of post_segments_with_retry (src/worker/main.py lines 271-280).
The opaque post_segments call is an oracle from the 1-based attempt number
to its outcome (r.json()['count'] on success, the exception otherwise).
The Python loop `for attempt in range(1, attempts + 1)` is rendered with
remaining = attempts - attempt + 1, so remaining = 1 exactly on the last
attempt (`attempt == attempts`), where failure returns None without a
sleep.  Result: (returned value, number of calls made, list of sleeps). -/
def retry_loop (post : Nat → Except String Nat) :
    Nat → Nat → Nat → Option Nat × Nat × List Nat
  | 0, _, _ => (none, 0, [])
  | 1, attempt, _ =>
      (match post attempt with
       | .ok v => (some v, 1, [])
       | .error _ => (none, 1, []))
  | remaining + 2, attempt, delay =>
      (match post attempt with
       | .ok v => (some v, 1, [])
       | .error _ =>
           let r := retry_loop post (remaining + 1) (attempt + 1) (delay * 2)
           (r.1, r.2.1 + 1, delay :: r.2.2))

/-- post_segments_with_retry (src/worker/main.py lines 270-280);
defaults attempts = 3, initial_delay = 2. -/
def post_segments_with_retry (post : Nat → Except String Nat)
    (attempts initial_delay : Nat) : Option Nat × Nat × List Nat :=
  retry_loop post attempts 1 initial_delay

/-- fail_job truncates the error message to 500 characters before posting
(message[:500], src/worker/main.py line 148). -/
def fail_job_message (message : String) : String :=
  py_take message 500

/-- What the main loop does with the persister's result
(src/worker/main.py lines 337-344): a falsy result (None from exhausted
retries) logs, calls fail_job with the fixed message, and `continue`s to
the next lease; otherwise processing proceeds with the inserted count. -/
inductive LoopStep where
  | continueNext (failMsg : String)
  | proceed (count : Nat)
deriving DecidableEq, Repr

/-- src/worker/main.py lines 337-344 (`if not posted: ... continue`).
A posted dict is always truthy here because post_segments only returns a
parsed JSON object; None is the only falsy value that reaches this test. -/
def persist_step (posted : Option Nat) : LoopStep :=
  match posted with
  | none => .continueNext (fail_job_message "Bulk segment insert failed after retries")
  | some c => .proceed c

/-! ### Diarization fill-pass (src/worker/main.py lines 622-668) -/

/-- A diarization turn.  pyannote reports float seconds; the embedding
carries millisecond integers, and the source's center
int(((segment.start + segment.end) * 1000) / 2) is Int.tdiv of the
millisecond sum by 2 (Python int() truncates toward zero, which agrees
with floor on the nonnegative times the engine emits). -/
structure Turn where
  startMs : Int
  endMs : Int
  label : String
deriving DecidableEq, Repr

/-- center_ms of a turn (src/worker/main.py line 632). -/
def turn_center (t : Turn) : Int :=
  Int.tdiv (t.startMs + t.endMs) 2

/-- turn_data: list of (center_ms, label) (src/worker/main.py lines 630-633). -/
def turn_data (turns : List Turn) : List (Int × String) :=
  turns.map (fun t => (turn_center t, t.label))

/-- A segment as returned by GET /segments (src/worker/main.py line 626);
participantId is None (or absent) when unassigned. -/
structure FetchedSeg where
  id : String
  startMs : Int
  endMs : Int
  participantId : Option String
deriving DecidableEq, Repr

/-- mid = int(((s.get('startMs') or 0) + (s.get('endMs') or 0)) / 2)
(src/worker/main.py line 637). -/
def seg_mid (s : FetchedSeg) : Int :=
  Int.tdiv (s.startMs + s.endMs) 2

/-- The best/best_d loop over turn centers (src/worker/main.py lines
639-645): strict improvement only, so the first of equally distant turns
wins.  The accumulator is (best_d, best). -/
def nearest_loop (mid : Int) : List (Int × String) → Option Int × Option String →
    Option Int × Option String
  | [], acc => acc
  | (c, lab) :: rest, acc =>
      let d := |c - mid|
      let acc2 := match acc with
        | (none, _) => (some d, some lab)
        | (some bd, best) => if d < bd then (some d, some lab) else (some bd, best)
      nearest_loop mid rest acc2

/-- The label of the nearest turn center, none when there are no turns. -/
def nearest_label (td : List (Int × String)) (mid : Int) : Option String :=
  (nearest_loop mid td (none, none)).2

/-- Per-segment decision of the fill-pass (src/worker/main.py lines
636-651): compute the midpoint, pick the nearest turn center's label, then
look its participant up; the surrounding code only groups the resulting
(participant, segment) pairs into one batched call per participant
(lines 652-665). -/
def fill_assign_for (turns : List Turn) (label_to_part : String → Option String)
    (s : FetchedSeg) : Option String :=
  match nearest_label (turn_data turns) (seg_mid s) with
  | none => none
  | some lab => label_to_part lab

/-! ### Diarization participant mapping (src/worker/main.py lines 574-602) -/

/-- A participant record; canonicalKey is the raw diarization label. -/
structure Participant where
  id : String
  name : String
  canonicalKey : String
deriving DecidableEq, Repr

/-- First-seen order of distinct turn labels (src/worker/main.py lines
580-585): a label is appended the first time it occurs; first_seen[label]
is its index in this list. -/
def first_seen_labels (turns : List Turn) : List String :=
  turns.foldl (fun acc t => if t.label ∈ acc then acc else acc ++ [t.label]) []

/-- next((p for p in participants if p.get('canonicalKey') == label), None)
(src/worker/main.py line 590): first participant whose canonicalKey
matches. -/
def find_by_key (ps : List Participant) (lab : String) : Option Participant :=
  ps.find? (fun p => p.canonicalKey == lab)

/-- The label → participant loop (src/worker/main.py lines 587-602).
ps is the evolving participants list (fetched ones plus those created so
far — the source appends each created participant to `participants`);
rank is the current label's index in ordered_labels, which equals
first_seen[label] because the loop walks ordered_labels in order, so
display_index = (first_seen.get(label, ...) or 0) + 1 = rank + 1.
fresh models the backend-assigned id of the participant created for the
rank-th label.  Returns the final participants list and the
label_to_part association in processing order. -/
def assign_labels (fresh : Nat → String) :
    List Participant → List String → Nat → List Participant × List (String × String)
  | ps, [], _ => (ps, [])
  | ps, lab :: rest, rank =>
      match find_by_key ps lab with
      | some p =>
          let r := assign_labels fresh ps rest (rank + 1)
          (r.1, (lab, p.id) :: r.2)
      | none =>
          let newP : Participant :=
            { id := fresh rank, name := "Participant " ++ toString (rank + 1),
              canonicalKey := lab }
          let r := assign_labels fresh (ps ++ [newP]) rest (rank + 1)
          (r.1, (lab, newP.id) :: r.2)

/-- The whole mapping step for a media's turns and fetched participants. -/
def run_label_mapping (fresh : Nat → String) (participants0 : List Participant)
    (turns : List Turn) : List Participant × List (String × String) :=
  assign_labels fresh participants0 (first_seen_labels turns) 0

/-! ### Temporary-file lifecycle (src/worker/main.py lines 360-467 and 510-568) -/

/-- Branch oracle for transcribe_real: whether the Whisper model loaded
(line 374), whether chunking is configured (CHUNK_SECONDS > 0, line 396),
and whether the ffmpeg invocation succeeded (lines 399 / 429). -/
structure RealFileOracle where
  model_load_ok : Bool
  chunking : Bool
  ffmpeg_ok : Bool
deriving DecidableEq, Repr

/-- Temp files (created, deleted) by transcribe_real on each exit path.
The NamedTemporaryFile at line 366 is opened with delete=False and
transcribe_real contains no os.remove/unlink, so the downloaded source
file persists on every exit path, as does the single-pass wav at line 397
once ffmpeg created it; only the chunk TemporaryDirectory (line 425) is
removed, by its context manager, on both the chunking-failure and success
paths.  On model-load failure the function returns before any transcode. -/
def transcribe_real_file_trace (o : RealFileOracle) : List String × List String :=
  if !o.model_load_ok then (["src.bin"], [])
  else if o.chunking then (["src.bin", "chunks_dir"], ["chunks_dir"])
  else if !o.ffmpeg_ok then (["src.bin"], [])
  else (["src.bin", "src.bin.wav"], [])

/-- Branch oracle for run_diarization: ffmpeg conversion success
(line 522), whether truncation is wanted (DIARIZATION_MAX_SECONDS set and
exceeded, line 536) and succeeded (line 539), and whether the pipeline
inference raised (line 549; the finally block runs regardless). -/
structure DiarOracle where
  ffmpeg_ok : Bool
  need_cap : Bool
  cap_ok : Bool
  infer_raises : Bool
deriving DecidableEq, Repr

/-- Temp files (created, deleted) by run_diarization (lines 512-568).
The finally block (lines 552-568) removes src_path if it exists, wav_path
if it exists, and final_wav_path when it differs from wav_path and
exists; on ffmpeg failure the early return still runs the finally.
Whether the inference raised does not change the cleanup. -/
def run_diarization_file_trace (o : DiarOracle) : List String × List String :=
  if !o.ffmpeg_ok then (["src.bin"], ["src.bin"])
  else
    let capped := o.need_cap && o.cap_ok
    let created := if capped then ["src.bin", "src.bin.wav", "src.bin.cap.wav"]
      else ["src.bin", "src.bin.wav"]
    let final_wav := if capped then "src.bin.cap.wav" else "src.bin.wav"
    let d3 := if final_wav ≠ "src.bin.wav" then [final_wav] else []
    (created, ["src.bin", "src.bin.wav"] ++ d3)

/-! ### Media fetch and textual classification (src/worker/main.py lines 180-200) -/

/-- ASCII lowercase, Python str.lower() restricted to the ASCII range that
every filename in this development uses. -/
def py_lower (s : String) : String :=
  String.mk (s.data.map Char.toLower)

/-- name.endswith(e): character-list suffix test. -/
def has_suffix (s pat : String) : Bool :=
  decide (pat.data.length ≤ s.data.length)
    && decide (s.data.drop (s.data.length - pat.data.length) = pat.data)

/-- The fixed textual-extension tuple ('.txt', '.md', '.json', '.vtt',
'.srt') of src/worker/main.py line 195. -/
def textual_exts : List String :=
  [".txt", ".md", ".json", ".vtt", ".srt"]

/-- name.endswith(tuple): true if any extension matches. -/
def has_textual_ext (name : String) : Bool :=
  textual_exts.any (fun e => has_suffix name e)

/-- Is b a UTF-8 continuation byte (0x80..0xBF)? -/
def utf8_cont (b : Nat) : Bool :=
  128 ≤ b && b ≤ 191

/-- Constraint on the second byte of a multi-byte sequence headed by b0;
the special cases exclude overlong encodings (E0, F0), surrogates (ED)
and code points above U+10FFFF (F4), exactly the sequences a strict
UTF-8 decoder such as CPython's rejects. -/
def utf8_second_ok (b0 b1 : Nat) : Bool :=
  if b0 = 224 then 160 ≤ b1 && b1 ≤ 191
  else if b0 = 237 then 128 ≤ b1 && b1 ≤ 159
  else if b0 = 240 then 144 ≤ b1 && b1 ≤ 191
  else if b0 = 244 then 128 ≤ b1 && b1 ≤ 143
  else utf8_cont b1

/-- Code points of bytes.decode('utf-8', errors='ignore')
(src/worker/main.py line 197): strict UTF-8 decoding where every invalid
maximal subpart (an invalid start byte, or a truncated/broken sequence
consisting of the start byte plus the continuation bytes consistent with
it) is dropped instead of raising. -/
def utf8_decode_ignore_points : List Nat → List Nat
  | [] => []
  | b0 :: rest =>
    if b0 ≤ 127 then b0 :: utf8_decode_ignore_points rest
    else if 194 ≤ b0 && b0 ≤ 223 then
      match rest with
      | [] => []
      | b1 :: rest2 =>
        if utf8_cont b1 then
          ((b0 - 192) * 64 + (b1 - 128)) :: utf8_decode_ignore_points rest2
        else utf8_decode_ignore_points (b1 :: rest2)
    else if 224 ≤ b0 && b0 ≤ 239 then
      match rest with
      | [] => []
      | b1 :: rest2 =>
        if !utf8_second_ok b0 b1 then utf8_decode_ignore_points (b1 :: rest2)
        else
          match rest2 with
          | [] => []
          | b2 :: rest3 =>
            if utf8_cont b2 then
              ((b0 - 224) * 4096 + (b1 - 128) * 64 + (b2 - 128)) ::
                utf8_decode_ignore_points rest3
            else utf8_decode_ignore_points (b2 :: rest3)
    else if 240 ≤ b0 && b0 ≤ 244 then
      match rest with
      | [] => []
      | b1 :: rest2 =>
        if !utf8_second_ok b0 b1 then utf8_decode_ignore_points (b1 :: rest2)
        else
          match rest2 with
          | [] => []
          | b2 :: rest3 =>
            if !utf8_cont b2 then utf8_decode_ignore_points (b2 :: rest3)
            else
              match rest3 with
              | [] => []
              | b3 :: rest4 =>
                if utf8_cont b3 then
                  ((b0 - 240) * 262144 + (b1 - 128) * 4096 + (b2 - 128) * 64 + (b3 - 128)) ::
                    utf8_decode_ignore_points rest4
                else utf8_decode_ignore_points (b3 :: rest4)
    else utf8_decode_ignore_points rest

/-- errors='ignore' decoding to a string. -/
def utf8_decode_ignore (bs : List Nat) : String :=
  String.mk ((utf8_decode_ignore_points bs).map Char.ofNat)

/-- Modelled from the spec's wording for comparison: the same decoder with
errors='replace' semantics, emitting U+FFFD for every dropped error
(including a truncated tail), as the claim's phrase "invalid byte
sequences replaced" would require. -/
def utf8_decode_replace_points : List Nat → List Nat
  | [] => []
  | b0 :: rest =>
    if b0 ≤ 127 then b0 :: utf8_decode_replace_points rest
    else if 194 ≤ b0 && b0 ≤ 223 then
      match rest with
      | [] => [65533]
      | b1 :: rest2 =>
        if utf8_cont b1 then
          ((b0 - 192) * 64 + (b1 - 128)) :: utf8_decode_replace_points rest2
        else 65533 :: utf8_decode_replace_points (b1 :: rest2)
    else if 224 ≤ b0 && b0 ≤ 239 then
      match rest with
      | [] => [65533]
      | b1 :: rest2 =>
        if !utf8_second_ok b0 b1 then 65533 :: utf8_decode_replace_points (b1 :: rest2)
        else
          match rest2 with
          | [] => [65533]
          | b2 :: rest3 =>
            if utf8_cont b2 then
              ((b0 - 224) * 4096 + (b1 - 128) * 64 + (b2 - 128)) ::
                utf8_decode_replace_points rest3
            else 65533 :: utf8_decode_replace_points (b2 :: rest3)
    else if 240 ≤ b0 && b0 ≤ 244 then
      match rest with
      | [] => [65533]
      | b1 :: rest2 =>
        if !utf8_second_ok b0 b1 then 65533 :: utf8_decode_replace_points (b1 :: rest2)
        else
          match rest2 with
          | [] => [65533]
          | b2 :: rest3 =>
            if !utf8_cont b2 then 65533 :: utf8_decode_replace_points (b2 :: rest3)
            else
              match rest3 with
              | [] => [65533]
              | b3 :: rest4 =>
                if utf8_cont b3 then
                  ((b0 - 240) * 262144 + (b1 - 128) * 4096 + (b2 - 128) * 64 + (b3 - 128)) ::
                    utf8_decode_replace_points rest4
                else 65533 :: utf8_decode_replace_points (b3 :: rest4)
    else 65533 :: utf8_decode_replace_points rest

/-- errors='replace' decoding to a string (spec-side comparison only). -/
def utf8_decode_replace (bs : List Nat) : String :=
  String.mk ((utf8_decode_replace_points bs).map Char.ofNat)

/-- Content as classified by fetch_media: decoded text or opaque bytes. -/
inductive Content where
  | text (s : String)
  | binary (b : List Nat)
deriving DecidableEq, Repr

/-- The classification tail of fetch_media (src/worker/main.py lines
193-200): lowercase the original filename (Python `or ''` for a missing
one), decode with errors='ignore' when the extension is textual, keep
bytes otherwise.  The except branch at lines 198-199 is unreachable
because errors='ignore' never raises. -/
def fetch_media_content (originalFilename : Option String) (content : List Nat) : Content :=
  let name := py_lower (originalFilename.getD "")
  if has_textual_ext name then Content.text (utf8_decode_ignore content)
  else Content.binary content

/-! ### Endpoint resolution (src/worker/main.py lines 73-118) -/

/-- Does the character list start with the pattern? -/
def starts_with_chars : List Char → List Char → Bool
  | _, [] => true
  | [], _ :: _ => false
  | c :: cs, p :: ps => c == p && starts_with_chars cs ps

/-- Does the character list contain the pattern as a contiguous run? -/
def chars_contain : List Char → List Char → Bool
  | [], pat => pat.isEmpty
  | s@(_ :: rest), pat => starts_with_chars s pat || chars_contain rest pat

/-- Python `pat in s` for strings. -/
def str_contains (s pat : String) : Bool :=
  chars_contain s.data pat.data

/-- Python s.rstrip('/'). -/
def rstrip_slash (s : String) : String :=
  String.mk ((s.data.reverse.dropWhile (fun c => c == '/')).reverse)

/-- resolve_base_url (src/worker/main.py lines 73-106).  The two health
probes (requests.get on the /health URL with timeouts 0.5 s and 1.0 s;
success = no exception and r.ok) are oracles from the probed URL to Bool.
An original URL already containing 'host.docker.internal' is returned
unchanged without probing (line 76), as is any URL when AUTO_FALLBACK is
disabled (line 78). -/
def resolve_base_url (auto_fallback : Bool) (local_backend_port : String)
    (probe_short probe_long : String → Bool) (original : String) : String :=
  if str_contains original "host.docker.internal" then original
  else if !auto_fallback then original
  else
    let fallback := "http://host.docker.internal:" ++ local_backend_port ++ "/api"
    if probe_short (rstrip_slash original ++ "/health") then original
    else if probe_long (rstrip_slash fallback ++ "/health") then fallback
    else fallback

/-- The configured URL list before resolution (src/worker/main.py lines
109-114): raw_base_urls is the Python `or` of BASE_URLS and
WORKER_BASE_URLS (an empty string is falsy), split on commas, entries
stripped, empties dropped, with [BASE_URL] as the fallback. -/
def configured_urls (raw_base_urls : Option String) (base_url : String) : List String :=
  match raw_base_urls with
  | some raw =>
      if raw = "" then [base_url]
      else
        let us := ((raw.splitOn ",").map String.trim).filter (fun u => u ≠ "")
        if us = [] then [base_url] else us
  | none => [base_url]

/-- build_base_list (src/worker/main.py lines 108-116): resolve each
configured URL. -/
def build_base_list (raw_base_urls : Option String) (base_url : String)
    (auto_fallback : Bool) (local_backend_port : String)
    (probe_short probe_long : String → Bool) : List String :=
  (configured_urls raw_base_urls base_url).map
    (resolve_base_url auto_fallback local_backend_port probe_short probe_long)

/-! ### Transcription orchestration (src/worker/main.py lines 321-336, 360-421) -/

/-- Python truthiness fallback `content or default` for a str value: the
default replaces only the empty string. -/
def py_str_or (s d : String) : String :=
  if s = "" then d else s

/-- The simulation branch of the per-job transcription decision
(src/worker/main.py lines 327-336): bytes content → placeholder builder
on the byte length (line 332); str content with a non-textual lowercased
filename → placeholder builder on len(content.encode('utf-8', 'ignore'))
(line 334; Lean strings hold only Unicode scalar values, so the encode
never drops anything and the length is String.utf8ByteSize); textual
filename → fake segments from `content or 'Simulated transcription
content.'` (line 336). -/
def orchestrate_sim (words_per_seg : Int) (originalFilename : Option String)
    (durationSec : Option Int) (content : Content) : List Segment :=
  let name := py_lower (originalFilename.getD "")
  match content with
  | Content.binary b => build_placeholder_segments durationSec b.length 12
  | Content.text s =>
      if !has_textual_ext name then
        build_placeholder_segments durationSec s.utf8ByteSize 12
      else
        build_fake_segments words_per_seg (py_str_or s "Simulated transcription content.")

/-- Outcome of the transcribe_real call as seen at the boundary
(src/worker/main.py lines 322-326): it returned a list or raised. -/
inductive RealCall where
  | raised
  | returned (segs : List Segment)

/-- ASCII whitespace bytes, the separators of Python bytes.split(). -/
def py_space_byte (b : Nat) : Bool :=
  b == 32 || b == 9 || b == 10 || b == 13 || b == 11 || b == 12

/-- The transcription decision of the main loop (src/worker/main.py lines
321-336), with the escaping Python exception made explicit.  real_path is
`WHISPER_AVAILABLE and not SIMULATE_WHISPER`.  On the exception fallback
(line 326) build_fake_segments receives `content or 'Fallback simulated
transcription.'`; when content is a non-empty bytes object the builder
splits the bytes (yielding a list of bytes words) and then ' '.join
raises TypeError — except when the bytes are all whitespace, in which
case the word list is empty and the builder returns zero segments. -/
def orchestrate (words_per_seg : Int) (originalFilename : Option String)
    (durationSec : Option Int) (content : Content) (real_path : Bool)
    (real_call : RealCall) : Except String (List Segment) :=
  if real_path then
    match real_call with
    | RealCall.returned segs => Except.ok segs
    | RealCall.raised =>
        match content with
        | Content.text s =>
            Except.ok (build_fake_segments words_per_seg
              (py_str_or s "Fallback simulated transcription."))
        | Content.binary b =>
            if b = [] then
              Except.ok (build_fake_segments words_per_seg "Fallback simulated transcription.")
            else if b.all py_space_byte then Except.ok []
            else Except.error "TypeError: sequence item 0: expected str instance, bytes found"
  else Except.ok (orchestrate_sim words_per_seg originalFilename durationSec content)

/-- Oracle for the unchunked real-transcription internals
(src/worker/main.py lines 360-421): model load success (line 374), ffmpeg
success (line 399), and the engine's emitted segment list. -/
structure RealOracle where
  model_load_ok : Bool
  ffmpeg_ok : Bool
  asr : List Segment

/-- Fallback structure of transcribe_real in the unchunked configuration
(src/worker/main.py lines 373-421): a model-load failure (line 377), a
transcoding failure (line 402) and an empty engine result (line 421) each
fall back to build_fake_segments on the fetched content (which the caller
passes as text_content); a non-empty result is returned as produced. -/
def transcribe_real_model (o : RealOracle) (words_per_seg : Int)
    (text_content : String) : List Segment :=
  if !o.model_load_ok then build_fake_segments words_per_seg text_content
  else if !o.ffmpeg_ok then build_fake_segments words_per_seg text_content
  else if o.asr = [] then build_fake_segments words_per_seg text_content
  else o.asr

/-! ## Theorems -/

lemma chunk_at_zero (C : Nat) (ws : List String) : chunk_at C ws 0 = ws.take C := by
  simp [chunk_at]

lemma chunk_shift (C : Nat) (ws : List String) (i : Nat) :
    chunk_at C (ws.drop C) i = chunk_at C ws (i + 1) := by
  simp [chunk_at, List.drop_drop, Nat.succ_mul]
  ring_nf

lemma start_off_shift (C : Nat) (ws : List String) (i : Nat) :
    start_off C ws (i + 1) = (ws.take C).length * 320 + 120 + start_off C (ws.drop C) i := by
  induction i with
  | zero => simp [start_off, chunk_at_zero]
  | succ i ih =>
      rw [show i + 1 + 1 = (i + 1) + 1 from rfl, start_off, ih, start_off, chunk_shift]
      ring

lemma fakeAux_get (C : Nat) :
    ∀ (i fuel : Nat) (ws : List String) (cursor : Int) (count : Nat)
      (h : i < (fakeAux C fuel ws cursor count).length),
      (fakeAux C fuel ws cursor count).get ⟨i, h⟩ =
        { idx := count + i
          startMs := cursor + (start_off C ws i : Int)
          endMs := cursor + (start_off C ws i : Int) + ((chunk_at C ws i).length : Int) * 320
          text := join_trunc (chunk_at C ws i) } := by
  intro i
  induction i with
  | zero =>
      intro fuel ws cursor count h
      cases fuel with
      | zero => simp [fakeAux] at h
      | succ f =>
          cases ws with
          | nil => simp [fakeAux] at h
          | cons w ws' =>
              simp [fakeAux, chunk_at_zero, start_off]
  | succ i ih =>
      intro fuel ws cursor count h
      cases fuel with
      | zero => simp [fakeAux] at h
      | succ f =>
          cases ws with
          | nil => simp [fakeAux] at h
          | cons w ws' =>
              have h' : i < (fakeAux C f ((w :: ws').drop C)
                  (cursor + ((w :: ws').take C).length * 320 + 120) (count + 1)).length := by
                simpa [fakeAux] using h
              calc (fakeAux C (f + 1) (w :: ws') cursor count).get ⟨i + 1, h⟩
                  = (fakeAux C f ((w :: ws').drop C)
                      (cursor + ((w :: ws').take C).length * 320 + 120) (count + 1)).get ⟨i, h'⟩ := by
                    simp [fakeAux]
                _ = _ := by
                    rw [ih]
                    have hc := chunk_shift C (w :: ws') i
                    have hs := start_off_shift C (w :: ws') i
                    rw [← hc, hs]
                    simp only [Segment.mk.injEq]
                    refine ⟨by omega, by push_cast; ring, by push_cast; ring, trivial⟩

lemma ceil_div_step (n C : Nat) (hC : 1 ≤ C) (hn : 1 ≤ n) :
    (n - C + C - 1) / C + 1 = (n + C - 1) / C := by
  rcases le_or_lt n C with h | h
  · have h1 : n - C = 0 := by omega
    have h2 : (0 + C - 1) / C = 0 := Nat.div_eq_of_lt (by omega)
    have h3 : n + C - 1 = (n - 1) + C := by omega
    have h4 : (n - 1) / C = 0 := Nat.div_eq_of_lt (by omega)
    rw [h1, h2, h3, Nat.add_div_right _ (by omega), h4]
  · have h1 : n - C + C - 1 = (n - C - 1) + C := by omega
    have h2 : n + C - 1 = (n - 1) + C := by omega
    have h3 : n - 1 = (n - C - 1) + C := by omega
    rw [h1, h2, Nat.add_div_right _ (by omega), Nat.add_div_right _ (by omega), h3,
      Nat.add_div_right _ (by omega)]

lemma fakeAux_length (C : Nat) (hC : 1 ≤ C) :
    ∀ (fuel : Nat) (ws : List String) (cursor : Int) (count : Nat),
      (fakeAux C fuel ws cursor count).length = min ((ws.length + C - 1) / C) fuel := by
  intro fuel
  induction fuel with
  | zero => intro ws cursor count; simp [fakeAux]
  | succ f ih =>
      intro ws cursor count
      cases ws with
      | nil =>
          have h0 : (C - 1) / C = 0 := Nat.div_eq_of_lt (by omega)
          simp [fakeAux, h0]
      | cons w ws' =>
          have hlen : ((w :: ws').drop C).length = (w :: ws').length - C := by
            simp [List.length_drop]
          have hstep := ceil_div_step (w :: ws').length C hC (by simp)
          have h1 : (fakeAux C (f + 1) (w :: ws') cursor count).length =
              (fakeAux C f ((w :: ws').drop C)
                (cursor + (((w :: ws').take C).length : Int) * 320 + 120) (count + 1)).length + 1 := by
            simp [fakeAux]
          rw [h1, ih, hlen]
          omega

lemma sim_chunk_size_pos (words_per_seg : Int) : 1 ≤ sim_chunk_size words_per_seg := by
  have h := le_max_left (1 : Int) words_per_seg
  unfold sim_chunk_size
  omega

lemma build_fake_segments_length (words_per_seg : Int) (text : String) :
    (build_fake_segments words_per_seg text).length =
      min (((py_words text).length + sim_chunk_size words_per_seg - 1) /
        sim_chunk_size words_per_seg) 500 :=
  fakeAux_length _ (sim_chunk_size_pos words_per_seg) 500 (py_words text) 0 0

lemma build_fake_segments_ne_nil (words_per_seg : Int) (text : String)
    (h : py_words text ≠ []) : build_fake_segments words_per_seg text ≠ [] := by
  have hC := sim_chunk_size_pos words_per_seg
  have hN : 1 ≤ (py_words text).length := by
    cases hw : py_words text with
    | nil => exact absurd hw h
    | cons a l => simp [hw]
  intro hnil
  have hlen := build_fake_segments_length words_per_seg text
  rw [hnil] at hlen
  have hdiv : 1 ≤ ((py_words text).length + sim_chunk_size words_per_seg - 1) /
      sim_chunk_size words_per_seg := by
    apply Nat.le_div_iff_mul_le (by omega) |>.mpr
    omega
  simp at hlen
  omega

lemma chunk_at_length (C : Nat) (ws : List String) (i : Nat) :
    (chunk_at C ws i).length = min C (ws.length - i * C) := by
  simp [chunk_at, List.length_take, List.length_drop]

/-- C3: for every whitespace-separated word list of length N and chunk size C
(the clamped SIMULATE_WORDS_PER_SEG), build_fake_segments produces exactly
ceil(N/C) segments capped at 500; consecutive segments satisfy
endMs + 120 = next startMs; idx runs exactly 0..count-1; each segment's
duration is 320 ms per word of its chunk; and the 10-word input
"a b c d e f g h i j" at chunk size 8 yields exactly the two segments
[0,2560) and [2680,3320). -/
theorem C3_fake_segment_shape (words_per_seg : Int) (text : String) :
    (build_fake_segments words_per_seg text).length =
      min (((py_words text).length + sim_chunk_size words_per_seg - 1) /
        sim_chunk_size words_per_seg) 500
    ∧ (∀ (i : Nat) (h : i + 1 < (build_fake_segments words_per_seg text).length),
        ((build_fake_segments words_per_seg text).get ⟨i, by omega⟩).endMs + 120 =
        ((build_fake_segments words_per_seg text).get ⟨i + 1, h⟩).startMs)
    ∧ (build_fake_segments words_per_seg text).map Segment.idx =
        List.range (build_fake_segments words_per_seg text).length
    ∧ (∀ (i : Nat) (h : i < (build_fake_segments words_per_seg text).length),
        ((build_fake_segments words_per_seg text).get ⟨i, h⟩).endMs -
        ((build_fake_segments words_per_seg text).get ⟨i, h⟩).startMs =
        320 * ((min (sim_chunk_size words_per_seg)
          ((py_words text).length - i * sim_chunk_size words_per_seg) : Nat) : Int))
    ∧ build_fake_segments 8 "a b c d e f g h i j" =
        [⟨0, 0, 2560, "a b c d e f g h"⟩, ⟨1, 2680, 3320, "i j"⟩] := by
  refine ⟨build_fake_segments_length words_per_seg text, ?_, ?_, ?_, by decide⟩
  · intro i h
    unfold build_fake_segments
    rw [fakeAux_get, fakeAux_get]
    show (0 : Int) + _ + _ + 120 = 0 + _
    rw [show i + 1 = i + 1 from rfl, start_off]
    push_cast
    ring
  · apply List.ext_get (by simp)
    intro i h1 h2
    have hg := fakeAux_get (sim_chunk_size words_per_seg) i 500 (py_words text) 0 0
      (by simpa [build_fake_segments] using h2)
    simp only [List.get_map]
    rw [show (build_fake_segments words_per_seg text).get ⟨i, by simpa using h1⟩ =
        (fakeAux (sim_chunk_size words_per_seg) 500 (py_words text) 0 0).get
          ⟨i, by simpa [build_fake_segments] using h2⟩ from rfl, hg]
    simp
  · intro i h
    unfold build_fake_segments
    rw [fakeAux_get]
    simp [chunk_at_length]
    ring

/-- Witness for C3: the theorem instantiated on the 10-word scenario input,
discharging the contiguity hypothesis at i = 0. -/
theorem C3_witness :
    ((build_fake_segments 8 "a b c d e f g h i j").get ⟨0, by decide⟩).endMs + 120 =
    ((build_fake_segments 8 "a b c d e f g h i j").get ⟨1, by decide⟩).startMs :=
  (C3_fake_segment_shape 8 "a b c d e f g h i j").2.1 0 (by decide)

/-- C2 counterexample: for binary media with no declared duration and
320000 bytes, the claim predicts a duration estimate of about 10000 ms and
12 segments of about 833 ms each (spanning 833 - 200 = 633 ms after the
trim).  In fact every produced segment spans exactly 800 ms (seg_length
1000 minus the 200 ms trim) and the last segment ends at 11800 ms, because
the estimate is floored at 12 * 1000 = 12000 ms before division. -/
theorem C2_counterexample :
    (build_placeholder_segments none 320000 12).map (fun s => s.endMs - s.startMs) =
      List.replicate 12 800
    ∧ (800 : Int) ≠ 633 ∧ (800 : Int) ≠ 833
    ∧ ((build_placeholder_segments none 320000 12).map Segment.endMs).getLast? =
        some 11800 := by
  refine ⟨by decide, by decide, by decide, by decide⟩

/-- C2 (amended): for binary media with no declared duration and a content
size of 320000 bytes, the byte-size heuristic estimates 10000 ms, but the
floor max(estimate, 12 * 1000) raises the duration to 12000 ms; generation
then produces exactly 12 segments with seg_length 1000 ms, segment i
spanning [1000 i, 1000 i + 800) — 200 ms trimmed off each segment's end. -/
theorem C2_placeholder_floored_duration :
    size_duration_ms 320000 = 10000
    ∧ placeholder_duration_ms none 320000 12 = 12000
    ∧ placeholder_seg_length none 320000 12 = 1000
    ∧ (build_placeholder_segments none 320000 12).map (fun s => (s.idx, s.startMs, s.endMs)) =
        [(0, 0, 800), (1, 1000, 1800), (2, 2000, 2800), (3, 3000, 3800),
         (4, 4000, 4800), (5, 5000, 5800), (6, 6000, 6800), (7, 7000, 7800),
         (8, 8000, 8800), (9, 9000, 9800), (10, 10000, 10800), (11, 11000, 11800)] := by
  refine ⟨by decide, by decide, by decide, by decide⟩

lemma placeholder_seg_length_none_ge (file_size_bytes target_segments : Nat)
    (ht : 1 ≤ target_segments) :
    (1000 : Int) ≤ placeholder_seg_length none file_size_bytes target_segments := by
  unfold placeholder_seg_length placeholder_duration_ms
  rw [← Int.ofNat_fdiv]
  have h2 : target_segments * 1000 / target_segments ≤
      max (size_duration_ms file_size_bytes) (target_segments * 1000) / target_segments :=
    Nat.div_le_div_right (le_max_right _ _)
  rw [Nat.mul_div_cancel_left 1000 (by omega)] at h2
  exact_mod_cast h2

/-- C10: when no durationSec is declared, every placeholder segment
satisfies startMs < endMs (the size-derived duration is floored at
target_segments * 1000 ms, so seg_length ≥ 1000 and each span is
seg_length - 200 ≥ 800); with a small declared durationSec (2 s) the
first of the default 12 segments is degenerate (endMs ≤ startMs). -/
theorem C10_placeholder_nondegenerate :
    (∀ (file_size_bytes : Nat) (s : Segment),
        s ∈ build_placeholder_segments none file_size_bytes 12 → s.startMs < s.endMs)
    ∧ (∀ (file_size_bytes : Nat),
        (1000 : Int) ≤ placeholder_seg_length none file_size_bytes 12)
    ∧ (∃ s ∈ build_placeholder_segments (some 2) 320000 12, s.endMs ≤ s.startMs) := by
  refine ⟨?_, fun n => placeholder_seg_length_none_ge n 12 (by omega), ?_⟩
  · intro n s hs
    have hL := placeholder_seg_length_none_ge n 12 (by omega)
    unfold build_placeholder_segments at hs
    simp only [List.mem_map, List.mem_range] at hs
    obtain ⟨i, _, rfl⟩ := hs
    simp only
    have : (0 : Int) ≤ (i : Int) * placeholder_seg_length none n 12 := by positivity
    omega
  · exact ⟨⟨0, 0, -34, "Simulated segment 1"⟩, by decide, by decide⟩

/-- Witness for C10: the theorem applied to the 320000-byte input and its
first segment. -/
theorem C10_witness :
    ((⟨0, 0, 800, "Simulated segment 1"⟩ : Segment)).startMs <
    ((⟨0, 0, 800, "Simulated segment 1"⟩ : Segment)).endMs :=
  C10_placeholder_nondegenerate.1 320000 _ (by decide)

/-- C4: with the default 3 attempts and initial delay 2, a post that fails
on every attempt is called exactly 3 times with sleeps of 2 s then 4 s
between consecutive attempts; exhaustion yields the value None rather than
an exception, after which the main loop calls fail_job with the truncated
(500-cap) message and continues to the next lease. -/
theorem C4_persister_retry (post : Nat → Except String Nat)
    (hfail : ∀ n, ∃ e, post n = .error e) :
    post_segments_with_retry post 3 2 = (none, 3, [2, 4])
    ∧ persist_step (post_segments_with_retry post 3 2).1 =
        .continueNext "Bulk segment insert failed after retries"
    ∧ "Bulk segment insert failed after retries" ≠ ""
    ∧ ("Bulk segment insert failed after retries".length : Nat) ≤ 500 := by
  obtain ⟨e1, h1⟩ := hfail 1
  obtain ⟨e2, h2⟩ := hfail 2
  obtain ⟨e3, h3⟩ := hfail 3
  have hrun : post_segments_with_retry post 3 2 = (none, 3, [2, 4]) := by
    simp [post_segments_with_retry, retry_loop, h1, h2, h3]
  refine ⟨hrun, ?_, by decide, by decide⟩
  rw [hrun]
  simp [persist_step, fail_job_message]
  decide

/-- Witness for C4: the theorem applied to a concretely always-failing post. -/
theorem C4_witness :
    post_segments_with_retry (fun _ => .error "connection refused") 3 2 = (none, 3, [2, 4]) :=
  (C4_persister_retry (fun _ => .error "connection refused")
    (fun _ => ⟨"connection refused", rfl⟩)).1

lemma nearest_loop_spec (mid : Int) :
    ∀ (td : List (Int × String)) (d0 : Int) (l0 : String),
      (nearest_loop mid td (some d0, some l0) = (some d0, some l0) ∧
        ∀ j, ∀ hj : j < td.length, d0 ≤ |(td.get ⟨j, hj⟩).1 - mid|)
      ∨ (∃ i, ∃ hi : i < td.length,
          nearest_loop mid td (some d0, some l0) =
            (some |(td.get ⟨i, hi⟩).1 - mid|, some (td.get ⟨i, hi⟩).2) ∧
          |(td.get ⟨i, hi⟩).1 - mid| < d0 ∧
          (∀ j, ∀ hj : j < td.length,
            |(td.get ⟨i, hi⟩).1 - mid| ≤ |(td.get ⟨j, hj⟩).1 - mid|) ∧
          (∀ j, ∀ hj : j < td.length, j < i →
            |(td.get ⟨i, hi⟩).1 - mid| < |(td.get ⟨j, hj⟩).1 - mid|)) := by
  intro td
  induction td with
  | nil =>
      intro d0 l0
      exact Or.inl ⟨rfl, fun j hj => absurd hj (by simp)⟩
  | cons p rest ih =>
      obtain ⟨c, lab⟩ := p
      intro d0 l0
      by_cases hd : |c - mid| < d0
      · have hstep : nearest_loop mid ((c, lab) :: rest) (some d0, some l0) =
            nearest_loop mid rest (some |c - mid|, some lab) := by
          simp [nearest_loop, hd]
        rcases ih |c - mid| lab with ⟨heq, hall⟩ | ⟨i, hi, heq, hlt, hmin, hfirst⟩
        · right
          refine ⟨0, by simp, by rw [hstep, heq]; simp, hd, ?_, ?_⟩
          · intro j hj
            cases j with
            | zero => exact le_refl _
            | succ k => exact hall k (by simpa using hj)
          · intro j hj hji
            omega
        · right
          refine ⟨i + 1, by simpa using hi, by rw [hstep, heq]; simp, lt_trans hlt hd, ?_, ?_⟩
          · intro j hj
            cases j with
            | zero => exact le_of_lt hlt
            | succ k => exact hmin k (by simpa using hj)
          · intro j hj hji
            cases j with
            | zero => exact hlt
            | succ k => exact hfirst k (by simpa using hj) (by omega)
      · have hstep : nearest_loop mid ((c, lab) :: rest) (some d0, some l0) =
            nearest_loop mid rest (some d0, some l0) := by
          simp [nearest_loop, hd]
        rcases ih d0 l0 with ⟨heq, hall⟩ | ⟨i, hi, heq, hlt, hmin, hfirst⟩
        · left
          refine ⟨by rw [hstep, heq], ?_⟩
          intro j hj
          cases j with
          | zero => exact not_lt.mp hd
          | succ k => exact hall k (by simpa using hj)
        · right
          refine ⟨i + 1, by simpa using hi, by rw [hstep, heq]; simp, hlt, ?_, ?_⟩
          · intro j hj
            cases j with
            | zero => exact le_of_lt (lt_of_lt_of_le hlt (not_lt.mp hd))
            | succ k => exact hmin k (by simpa using hj)
          · intro j hj hji
            cases j with
            | zero => exact lt_of_lt_of_le hlt (not_lt.mp hd)
            | succ k => exact hfirst k (by simpa using hj) (by omega)

lemma nearest_label_spec (mid : Int) (td : List (Int × String)) (hne : td ≠ []) :
    ∃ i, ∃ hi : i < td.length,
      nearest_label td mid = some (td.get ⟨i, hi⟩).2 ∧
      (∀ j, ∀ hj : j < td.length,
        |(td.get ⟨i, hi⟩).1 - mid| ≤ |(td.get ⟨j, hj⟩).1 - mid|) ∧
      (∀ j, ∀ hj : j < td.length, j < i →
        |(td.get ⟨i, hi⟩).1 - mid| < |(td.get ⟨j, hj⟩).1 - mid|) := by
  cases td with
  | nil => exact absurd rfl hne
  | cons p rest =>
      obtain ⟨c, lab⟩ := p
      have hstep : nearest_loop mid ((c, lab) :: rest) (none, none) =
          nearest_loop mid rest (some |c - mid|, some lab) := by
        simp [nearest_loop]
      rcases nearest_loop_spec mid rest |c - mid| lab with
        ⟨heq, hall⟩ | ⟨i, hi, heq, hlt, hmin, hfirst⟩
      · refine ⟨0, by simp, ?_, ?_, ?_⟩
        · unfold nearest_label
          rw [hstep, heq]
          rfl
        · intro j hj
          cases j with
          | zero => exact le_refl _
          | succ k => exact hall k (by simpa using hj)
        · intro j hj hji
          omega
      · refine ⟨i + 1, by simpa using hi, ?_, ?_, ?_⟩
        · unfold nearest_label
          rw [hstep, heq]
          rfl
        · intro j hj
          cases j with
          | zero => exact le_of_lt hlt
          | succ k => exact hmin k (by simpa using hj)
        · intro j hj hji
          cases j with
          | zero => exact hlt
          | succ k => exact hfirst k (by simpa using hj) (by omega)

/-- C5: in the fill-pass, for a fetched segment with no turns nothing is
assigned; with a non-empty turn list the participant assigned is
label_to_part of the label of the turn whose center minimizes the absolute
distance to the segment's midpoint, ties resolved to the earliest turn in
traversal order (the loop updates only on strict improvement). -/
theorem C5_fill_nearest_center (turns : List Turn)
    (label_to_part : String → Option String) (s : FetchedSeg) (hne : turns ≠ []) :
    (∀ (l2p : String → Option String) (s2 : FetchedSeg), fill_assign_for [] l2p s2 = none)
    ∧ ∃ i, ∃ hi : i < turns.length,
        (∀ j, ∀ hj : j < turns.length,
          |turn_center (turns.get ⟨i, hi⟩) - seg_mid s| ≤
          |turn_center (turns.get ⟨j, hj⟩) - seg_mid s|) ∧
        (∀ j, ∀ hj : j < turns.length, j < i →
          |turn_center (turns.get ⟨i, hi⟩) - seg_mid s| <
          |turn_center (turns.get ⟨j, hj⟩) - seg_mid s|) ∧
        fill_assign_for turns label_to_part s =
          label_to_part (turns.get ⟨i, hi⟩).label := by
  constructor
  · intro l2p s2
    rfl
  · have htd : turn_data turns ≠ [] := by
      cases turns with
      | nil => exact absurd rfl hne
      | cons t ts => simp [turn_data]
    obtain ⟨i, hi, heq, hmin, hfirst⟩ := nearest_label_spec (seg_mid s) (turn_data turns) htd
    have hlen : (turn_data turns).length = turns.length := by simp [turn_data]
    have hget : ∀ j, ∀ hj : j < turns.length,
        (turn_data turns).get ⟨j, by omega⟩ =
          (turn_center (turns.get ⟨j, hj⟩), (turns.get ⟨j, hj⟩).label) := by
      intro j hj
      simp [turn_data]
    have hi' : i < turns.length := by omega
    refine ⟨i, hi', ?_, ?_, ?_⟩
    · intro j hj
      have h1 := hmin j (by omega)
      rwa [hget i hi', hget j hj] at h1
    · intro j hj hji
      have h1 := hfirst j (by omega) hji
      rwa [hget i hi', hget j hj] at h1
    · unfold fill_assign_for
      rw [heq, hget i hi']

/-- Witness for C5: two turns with centers 500 and 2500 against a segment
with midpoint 2000; the second turn is nearest, so its participant is
assigned. -/
theorem C5_witness :
    fill_assign_for [⟨0, 1000, "S0"⟩, ⟨2000, 3000, "S1"⟩]
      (fun lab => if lab = "S1" then some "p2" else some "p1")
      ⟨"seg1", 1900, 2100, none⟩ = some "p2" := by
  obtain ⟨hnil, i, hi, hmin, hfirst, heq⟩ :=
    C5_fill_nearest_center [⟨0, 1000, "S0"⟩, ⟨2000, 3000, "S1"⟩]
      (fun lab => if lab = "S1" then some "p2" else some "p1")
      ⟨"seg1", 1900, 2100, none⟩ (by decide)
  simp only [List.length_cons, List.length_nil] at hi
  have hcase : i = 0 ∨ i = 1 := by omega
  rcases hcase with rfl | rfl
  · have h := hmin 1 (by simp)
    simp at h
    exact absurd h (by decide)
  · rw [heq]
    show (if ("S1" : String) = "S1" then (some "p2" : Option String) else some "p1") = some "p2"
    decide

lemma first_seen_labels_nodup (turns : List Turn) : (first_seen_labels turns).Nodup := by
  suffices h : ∀ (ts : List Turn) (acc : List String), acc.Nodup →
      (ts.foldl (fun acc t => if t.label ∈ acc then acc else acc ++ [t.label]) acc).Nodup by
    exact h turns [] List.nodup_nil
  intro ts
  induction ts with
  | nil => intro acc hacc; exact hacc
  | cons t ts ih =>
      intro acc hacc
      simp only [List.foldl_cons]
      by_cases hmem : t.label ∈ acc
      · simpa [hmem] using ih acc hacc
      · have hacc2 : (acc ++ [t.label]).Nodup := by
          simp [List.nodup_append, hacc, hmem]
        simpa [hmem] using ih (acc ++ [t.label]) hacc2

lemma assign_labels_ps_mono (fresh : Nat → String) :
    ∀ (labels : List String) (ps : List Participant) (rank : Nat) (p : Participant),
      p ∈ ps → p ∈ (assign_labels fresh ps labels rank).1 := by
  intro labels
  induction labels with
  | nil => intro ps rank p hp; exact hp
  | cons lab rest ih =>
      intro ps rank p hp
      cases hfind : find_by_key ps lab with
      | some q => simpa [assign_labels, hfind] using ih ps (rank + 1) p hp
      | none =>
          simpa [assign_labels, hfind] using
            ih (ps ++ [(⟨fresh rank, "Participant " ++ toString (rank + 1), lab⟩ : Participant)])
              (rank + 1) p (by simp [hp])

lemma find_by_key_append (ps1 ps2 : List Participant) (lab : String) :
    find_by_key (ps1 ++ ps2) lab = (find_by_key ps1 lab).or (find_by_key ps2 lab) := by
  simp [find_by_key]

lemma find_by_key_none_of (ps : List Participant) (lab : String)
    (h : ∀ q ∈ ps, q.canonicalKey ≠ lab) : find_by_key ps lab = none := by
  simp only [find_by_key, List.find?_eq_none]
  intro q hq
  simpa using h q hq

lemma assign_labels_spec (fresh : Nat → String) :
    ∀ (labels : List String) (ps0 extra : List Participant) (rank : Nat),
      labels.Nodup →
      (∀ q ∈ extra, q.canonicalKey ∉ labels) →
      ∀ j, ∀ hj : j < labels.length,
        (∀ p, find_by_key ps0 (labels.get ⟨j, hj⟩) = some p →
          (labels.get ⟨j, hj⟩, p.id) ∈ (assign_labels fresh (ps0 ++ extra) labels rank).2)
        ∧ (find_by_key ps0 (labels.get ⟨j, hj⟩) = none →
            (labels.get ⟨j, hj⟩, fresh (rank + j)) ∈
              (assign_labels fresh (ps0 ++ extra) labels rank).2 ∧
            (⟨fresh (rank + j), "Participant " ++ toString (rank + j + 1),
                labels.get ⟨j, hj⟩⟩ : Participant) ∈
              (assign_labels fresh (ps0 ++ extra) labels rank).1) := by
  intro labels
  induction labels with
  | nil =>
      intro ps0 extra rank hnd hextra j hj
      exact absurd hj (by simp)
  | cons lab rest ih =>
      intro ps0 extra rank hnd hextra j hj
      have hnd_rest : rest.Nodup := (List.nodup_cons.mp hnd).2
      have hlab_rest : lab ∉ rest := (List.nodup_cons.mp hnd).1
      cases j with
      | zero =>
          constructor
          · intro p hp
            have hcomb : find_by_key (ps0 ++ extra) lab = some p := by
              rw [find_by_key_append]
              simp [show find_by_key ps0 lab = some p from hp]
            simp only [assign_labels, hcomb]
            exact List.mem_cons_self _ _
          · intro hp
            have hextra_none : find_by_key extra lab = none := by
              apply find_by_key_none_of
              intro q hq
              intro hkey
              exact hextra q hq (hkey ▸ List.mem_cons_self _ _)
            have hcomb : find_by_key (ps0 ++ extra) lab = none := by
              rw [find_by_key_append, show find_by_key ps0 lab = none from hp, hextra_none]
              rfl
            simp only [assign_labels, hcomb]
            refine ⟨by simp, ?_⟩
            apply assign_labels_ps_mono
            simp [Nat.add_zero]
      | succ k =>
          have hk : k < rest.length := by simpa using hj
          cases hfind : find_by_key ps0 lab with
          | some p =>
              have hcomb : find_by_key (ps0 ++ extra) lab = some p := by
                rw [find_by_key_append]
                simp [hfind]
              have hextra_rest : ∀ q ∈ extra, q.canonicalKey ∉ rest := by
                intro q hq hmem
                exact hextra q hq (List.mem_cons_of_mem _ hmem)
              have hrec := ih ps0 extra (rank + 1) hnd_rest hextra_rest k hk
              constructor
              · intro p2 hp2
                simp only [assign_labels, hcomb]
                refine List.mem_cons_of_mem _ ?_
                have h1 := hrec.1 p2 hp2
                simpa [Nat.add_assoc] using h1
              · intro hp2
                have h2 := hrec.2 hp2
                simp only [assign_labels, hcomb]
                have harith : rank + 1 + k = rank + (k + 1) := by omega
                refine ⟨List.mem_cons_of_mem _ ?_, ?_⟩
                · rw [show rank + (k + 1) = rank + 1 + k from by omega]
                  exact h2.1
                · rw [show rank + (k + 1) = rank + 1 + k from by omega]
                  exact h2.2
          | none =>
              have hextra_none : find_by_key extra lab = none := by
                apply find_by_key_none_of
                intro q hq hkey
                exact hextra q hq (hkey ▸ List.mem_cons_self _ _)
              have hcomb : find_by_key (ps0 ++ extra) lab = none := by
                rw [find_by_key_append, hfind, hextra_none]
                rfl
              have hextra2 : ∀ q ∈ extra ++
                  [(⟨fresh rank, "Participant " ++ toString (rank + 1), lab⟩ : Participant)],
                  q.canonicalKey ∉ rest := by
                intro q hq hmem
                rcases List.mem_append.mp hq with hq1 | hq1
                · exact hextra q hq1 (List.mem_cons_of_mem _ hmem)
                · have : q = ⟨fresh rank, "Participant " ++ toString (rank + 1), lab⟩ := by
                    simpa using hq1
                  rw [this] at hmem
                  exact hlab_rest hmem
              have hassoc : ps0 ++ extra ++
                  [(⟨fresh rank, "Participant " ++ toString (rank + 1), lab⟩ : Participant)] =
                  ps0 ++ (extra ++
                    [(⟨fresh rank, "Participant " ++ toString (rank + 1), lab⟩ : Participant)]) := by
                simp [List.append_assoc]
              have hrec := ih ps0 (extra ++
                  [(⟨fresh rank, "Participant " ++ toString (rank + 1), lab⟩ : Participant)])
                (rank + 1) hnd_rest hextra2 k hk
              constructor
              · intro p2 hp2
                simp only [assign_labels, hcomb]
                refine List.mem_cons_of_mem _ ?_
                have h1 := hrec.1 p2 hp2
                rw [← hassoc] at h1
                exact h1
              · intro hp2
                have h2 := hrec.2 hp2
                rw [← hassoc] at h2
                simp only [assign_labels, hcomb]
                refine ⟨List.mem_cons_of_mem _ ?_, ?_⟩
                · rw [show rank + (k + 1) = rank + 1 + k from by omega]
                  exact h2.1
                · rw [show rank + (k + 1) = rank + 1 + k from by omega]
                  exact h2.2

/-- C6: for every sequence of diarization turns, each distinct speaker
label, taken in first-seen order, is mapped to a participant: fetched
participants are never modified (reuse preserves the existing record,
hence its name); a label with a fetched canonicalKey match is mapped to
that participant's id; a label with no match gets a newly created
participant named "Participant N" where N is the label's 1-based
first-seen rank. -/
theorem C6_label_participant_mapping (fresh : Nat → String)
    (participants0 : List Participant) (turns : List Turn)
    (j : Nat) (hj : j < (first_seen_labels turns).length) :
    (∀ p ∈ participants0, p ∈ (run_label_mapping fresh participants0 turns).1)
    ∧ (∀ p, find_by_key participants0 ((first_seen_labels turns).get ⟨j, hj⟩) = some p →
        ((first_seen_labels turns).get ⟨j, hj⟩, p.id) ∈
          (run_label_mapping fresh participants0 turns).2)
    ∧ (find_by_key participants0 ((first_seen_labels turns).get ⟨j, hj⟩) = none →
        ((first_seen_labels turns).get ⟨j, hj⟩, fresh j) ∈
          (run_label_mapping fresh participants0 turns).2 ∧
        (⟨fresh j, "Participant " ++ toString (j + 1),
            (first_seen_labels turns).get ⟨j, hj⟩⟩ : Participant) ∈
          (run_label_mapping fresh participants0 turns).1) := by
  have hspec := assign_labels_spec fresh (first_seen_labels turns) participants0 [] 0
    (first_seen_labels_nodup turns) (by simp) j hj
  rw [List.append_nil] at hspec
  refine ⟨?_, ?_, ?_⟩
  · intro p hp
    exact assign_labels_ps_mono fresh (first_seen_labels turns) participants0 0 p hp
  · intro p hp
    exact hspec.1 p hp
  · intro hp
    have h2 := hspec.2 hp
    simpa [run_label_mapping] using h2

/-- Witness for C6: turns with labels SPEAKER_00, SPEAKER_01, SPEAKER_00
and a fetched participant renamed "Alice" holding canonicalKey SPEAKER_00;
the theorem applied at rank 1 shows SPEAKER_01 gets a fresh participant
named "Participant 2", and at rank 0 that SPEAKER_00 reuses Alice's id. -/
theorem C6_witness :
    ("SPEAKER_01", "new-1") ∈ (run_label_mapping (fun n => "new-" ++ toString n)
      [⟨"pid-ex", "Alice", "SPEAKER_00"⟩]
      [⟨0, 1000, "SPEAKER_00"⟩, ⟨1000, 2000, "SPEAKER_01"⟩, ⟨2000, 3000, "SPEAKER_00"⟩]).2
    ∧ (⟨"new-1", "Participant 2", "SPEAKER_01"⟩ : Participant) ∈
        (run_label_mapping (fun n => "new-" ++ toString n)
          [⟨"pid-ex", "Alice", "SPEAKER_00"⟩]
          [⟨0, 1000, "SPEAKER_00"⟩, ⟨1000, 2000, "SPEAKER_01"⟩, ⟨2000, 3000, "SPEAKER_00"⟩]).1
    ∧ ("SPEAKER_00", "pid-ex") ∈ (run_label_mapping (fun n => "new-" ++ toString n)
        [⟨"pid-ex", "Alice", "SPEAKER_00"⟩]
        [⟨0, 1000, "SPEAKER_00"⟩, ⟨1000, 2000, "SPEAKER_01"⟩, ⟨2000, 3000, "SPEAKER_00"⟩]).2 := by
  have h1 := (C6_label_participant_mapping (fun n => "new-" ++ toString n)
      [⟨"pid-ex", "Alice", "SPEAKER_00"⟩]
      [⟨0, 1000, "SPEAKER_00"⟩, ⟨1000, 2000, "SPEAKER_01"⟩, ⟨2000, 3000, "SPEAKER_00"⟩]
      1 (by decide)).2.2 (by decide)
  have h2 := (C6_label_participant_mapping (fun n => "new-" ++ toString n)
      [⟨"pid-ex", "Alice", "SPEAKER_00"⟩]
      [⟨0, 1000, "SPEAKER_00"⟩, ⟨1000, 2000, "SPEAKER_01"⟩, ⟨2000, 3000, "SPEAKER_00"⟩]
      0 (by decide)).2.1 ⟨"pid-ex", "Alice", "SPEAKER_00"⟩ (by decide)
  exact ⟨h1.1, h1.2, h2⟩

/-- C7 counterexample: on the successful unchunked real-transcription path
the downloaded source file (and the transcoded wav) are created but
nothing is deleted, contradicting the claim that every temporary file is
deleted on every exit path in both paths. -/
theorem C7_counterexample :
    "src.bin" ∈ (transcribe_real_file_trace ⟨true, false, true⟩).1
    ∧ (transcribe_real_file_trace ⟨true, false, true⟩).2 = [] := by
  exact ⟨by decide, by decide⟩

/-- C7 (amended): in the diarization path every created temporary file is
deleted on every exit path (including the inference-exception path); in
the real-transcription path only the chunk temporary directory is deleted
(by its scope), while the downloaded source file is created and never
deleted on any path. -/
theorem C7_cleanup_scoped :
    (∀ o : DiarOracle, ∀ f ∈ (run_diarization_file_trace o).1,
        f ∈ (run_diarization_file_trace o).2)
    ∧ (∀ o : RealFileOracle, "src.bin" ∈ (transcribe_real_file_trace o).1
        ∧ "src.bin" ∉ (transcribe_real_file_trace o).2)
    ∧ (∀ o : RealFileOracle, o.model_load_ok = true → o.chunking = true →
        "chunks_dir" ∈ (transcribe_real_file_trace o).1
        ∧ "chunks_dir" ∈ (transcribe_real_file_trace o).2) := by
  refine ⟨?_, ?_, ?_⟩
  · intro o
    rcases o with ⟨f1, f2, f3, f4⟩
    cases f1 <;> cases f2 <;> cases f3 <;> cases f4 <;> decide
  · intro o
    rcases o with ⟨f1, f2, f3⟩
    cases f1 <;> cases f2 <;> cases f3 <;> exact ⟨by decide, by decide⟩
  · intro o
    rcases o with ⟨f1, f2, f3⟩
    cases f1 <;> cases f2 <;> cases f3 <;> simp <;> decide

/-- Witness for C7: the theorem applied to the truncated-diarization path
and to a concrete real-transcription oracle. -/
theorem C7_witness :
    "src.bin.cap.wav" ∈ (run_diarization_file_trace ⟨true, true, true, false⟩).2
    ∧ "src.bin" ∉ (transcribe_real_file_trace ⟨true, true, true⟩).2 :=
  ⟨C7_cleanup_scoped.1 ⟨true, true, true, false⟩ "src.bin.cap.wav" (by decide),
   (C7_cleanup_scoped.2.1 ⟨true, true, true⟩).2⟩

/-- C8 counterexample: for a textual filename and content starting with the
invalid byte 0xFF, the code's errors='ignore' decode drops the byte and
yields "ab", whereas the claimed "invalid byte sequences replaced"
behaviour (errors='replace') would yield "�ab"; the two disagree. -/
theorem C8_counterexample :
    fetch_media_content (some "a.txt") [255, 97, 98] = Content.text "ab"
    ∧ utf8_decode_replace [255, 97, 98] = "�ab"
    ∧ ("ab" : String) ≠ "�ab" := by
  refine ⟨by decide, by decide, by decide⟩

/-- C8 (amended): for filenames whose lowercased form ends in one of the
fixed textual extensions, content is decoded as UTF-8 with invalid byte
sequences dropped (errors='ignore') — a total function, never an
exception; for any other filename the bytes are returned unmodified; on
pure-ASCII content the best-effort decode is the identity. -/
theorem C8_fetch_classification (originalFilename : Option String) (content : List Nat) :
    (has_textual_ext (py_lower (originalFilename.getD "")) = true →
      fetch_media_content originalFilename content = Content.text (utf8_decode_ignore content))
    ∧ (has_textual_ext (py_lower (originalFilename.getD "")) = false →
      fetch_media_content originalFilename content = Content.binary content)
    ∧ ((∀ b ∈ content, b ≤ 127) → utf8_decode_ignore_points content = content) := by
  refine ⟨?_, ?_, ?_⟩
  · intro h
    simp [fetch_media_content, h]
  · intro h
    simp [fetch_media_content, h]
  · intro h
    induction content with
    | nil => rfl
    | cons b bs ih =>
        have hb : b ≤ 127 := h b (List.mem_cons_self _ _)
        have hbs : ∀ x ∈ bs, x ≤ 127 := fun x hx => h x (List.mem_cons_of_mem _ hx)
        unfold utf8_decode_ignore_points
        simp [hb, ih hbs]

/-- Witness for C8: the theorem applied to a textual and a binary filename. -/
theorem C8_witness :
    fetch_media_content (some "x.TXT") [104, 105] = Content.text "hi"
    ∧ fetch_media_content (some "x.mp3") [104, 105] = Content.binary [104, 105] := by
  constructor
  · exact (C8_fetch_classification (some "x.TXT") [104, 105]).1 (by decide)
  · exact (C8_fetch_classification (some "x.mp3") [104, 105]).2.1 (by decide)

/-- C9 counterexample: an address that already contains
'host.docker.internal' is returned unchanged without probing, even when
its own probe would fail and the derived fallback's probe would succeed —
the claim says it would be replaced by the fallback. -/
theorem C9_counterexample :
    resolve_base_url true "5002" (fun _ => false) (fun _ => true)
      "http://host.docker.internal:9999/api" = "http://host.docker.internal:9999/api"
    ∧ "http://host.docker.internal:9999/api" ≠ "http://host.docker.internal:5002/api" := by
  refine ⟨by decide, by decide⟩

/-- C9 (amended): startup resolution maps the configured list pointwise,
preserving order and cardinality; when auto-fallback is enabled and the
address does not already contain 'host.docker.internal', the address is
kept if its short-timeout health probe succeeds, replaced by the derived
fallback if the original probe fails and the fallback probe succeeds, and
still replaced by the fallback when both probes fail; an address already
containing 'host.docker.internal' (or any address when auto-fallback is
disabled) is returned unchanged without probing. -/
theorem C9_endpoint_resolution (raw_base_urls : Option String) (base_url : String)
    (auto_fallback : Bool) (port : String) (probe_short probe_long : String → Bool) :
    ((build_base_list raw_base_urls base_url auto_fallback port probe_short probe_long).length =
      (configured_urls raw_base_urls base_url).length)
    ∧ (∀ i, ∀ hi : i < (configured_urls raw_base_urls base_url).length,
        (build_base_list raw_base_urls base_url auto_fallback port probe_short probe_long).get
            ⟨i, by simpa [build_base_list] using hi⟩ =
          resolve_base_url auto_fallback port probe_short probe_long
            ((configured_urls raw_base_urls base_url).get ⟨i, hi⟩))
    ∧ (∀ u : String, str_contains u "host.docker.internal" = false → auto_fallback = true →
        (probe_short (rstrip_slash u ++ "/health") = true →
          resolve_base_url auto_fallback port probe_short probe_long u = u)
        ∧ (probe_short (rstrip_slash u ++ "/health") = false →
            resolve_base_url auto_fallback port probe_short probe_long u =
              "http://host.docker.internal:" ++ port ++ "/api"))
    ∧ (∀ u : String, str_contains u "host.docker.internal" = true ∨ auto_fallback = false →
        resolve_base_url auto_fallback port probe_short probe_long u = u) := by
  refine ⟨by simp [build_base_list], ?_, ?_, ?_⟩
  · intro i hi
    simp [build_base_list]
  · intro u hu hauto
    constructor
    · intro hp
      simp [resolve_base_url, hu, hauto, hp]
    · intro hp
      by_cases hl : probe_long (rstrip_slash
          ("http://host.docker.internal:" ++ port ++ "/api") ++ "/health") = true
      · simp [resolve_base_url, hu, hauto, hp, hl]
      · simp [resolve_base_url, hu, hauto, hp, hl]
  · intro u hu
    rcases hu with hu | hu
    · simp [resolve_base_url, hu]
    · simp [resolve_base_url, hu]

/-- Witness for C9: the theorem applied to concrete probe outcomes — a
failing original probe with a succeeding fallback probe substitutes the
derived fallback address. -/
theorem C9_witness :
    resolve_base_url true "5002" (fun _ => false) (fun _ => true) "http://backend:5000/api" =
      "http://host.docker.internal:5002/api" :=
  ((C9_endpoint_resolution (some "http://backend:5000/api") "http://backend:5000/api"
      true "5002" (fun _ => false) (fun _ => true)).2.2.1
    "http://backend:5000/api" (by decide) rfl).2 (by decide)

lemma build_placeholder_segments_length (durationSec : Option Int)
    (file_size_bytes target_segments : Nat) :
    (build_placeholder_segments durationSec file_size_bytes target_segments).length =
      target_segments := by
  simp [build_placeholder_segments]

/-- C1 counterexample: in the simulation path, a textual file whose
content is the non-empty whitespace-only string " " is truthy in Python,
so the fake-segment builder receives it unchanged, finds no words, and
the orchestrator yields zero segments — contradicting the claim that a
non-empty sequence is produced for every job and fetched media content. -/
theorem C1_counterexample :
    orchestrate 8 (some "notes.txt") none (Content.text " ") false RealCall.raised =
      Except.ok ([] : List Segment)
    ∧ orchestrate 8 (some "song.mp3") none (Content.binary [77, 80, 51]) true RealCall.raised =
        Except.error "TypeError: sequence item 0: expected str instance, bytes found" := by
  constructor
  · rfl
  · rfl

/-- C1 (amended): the orchestrator degrades every modelled internal
failure to the deterministic placeholder builders — binary content always
yields the 12 placeholder segments, textual content yields fake segments
that are non-empty whenever the text has at least one word or is empty
(replaced by the fixed default), every transcribe_real failure trigger
(model load, transcoding, empty result) falls back to the fake builder,
and a boundary exception over textual content falls back to the fake
builder on `content or` the fixed default — but the output is empty for
non-empty whitespace-only textual content, and the boundary fallback
itself raises for non-empty non-whitespace binary content. -/
theorem C1_orchestrator_degrades (words_per_seg : Int) (originalFilename : Option String)
    (durationSec : Option Int) :
    (∀ b : List Nat,
      orchestrate_sim words_per_seg originalFilename durationSec (Content.binary b) ≠ [])
    ∧ (∀ s : String, py_words s ≠ [] ∨ s = "" →
        orchestrate_sim words_per_seg originalFilename durationSec (Content.text s) ≠ [])
    ∧ (∀ (o : RealOracle) (t : String),
        o.model_load_ok = false ∨ o.ffmpeg_ok = false ∨ o.asr = [] →
        transcribe_real_model o words_per_seg t = build_fake_segments words_per_seg t)
    ∧ (∀ (o : RealOracle) (t : String), o.model_load_ok = true → o.ffmpeg_ok = true →
        o.asr ≠ [] → transcribe_real_model o words_per_seg t = o.asr)
    ∧ (∀ s : String,
        orchestrate words_per_seg originalFilename durationSec (Content.text s) true
          RealCall.raised =
          Except.ok (build_fake_segments words_per_seg
            (py_str_or s "Fallback simulated transcription.")))
    ∧ (∀ (content : Content) (real_call : RealCall),
        orchestrate words_per_seg originalFilename durationSec content false real_call =
          Except.ok (orchestrate_sim words_per_seg originalFilename durationSec content)) := by
  refine ⟨?_, ?_, ?_, ?_, fun s => rfl, fun content real_call => rfl⟩
  · intro b h
    have hl := build_placeholder_segments_length durationSec b.length 12
    rw [show orchestrate_sim words_per_seg originalFilename durationSec (Content.binary b) =
      build_placeholder_segments durationSec b.length 12 from rfl] at h
    rw [h] at hl
    simp at hl
  · intro s hs
    by_cases hext : has_textual_ext (py_lower (originalFilename.getD "")) = true
    · have hred : orchestrate_sim words_per_seg originalFilename durationSec (Content.text s) =
          build_fake_segments words_per_seg (py_str_or s "Simulated transcription content.") := by
        simp [orchestrate_sim, hext]
      rw [hred]
      rcases hs with hw | rfl
      · have hne : s ≠ "" := by
          intro h0
          rw [h0] at hw
          exact hw rfl
        rw [show py_str_or s "Simulated transcription content." = s from if_neg hne]
        exact build_fake_segments_ne_nil words_per_seg s hw
      · rw [show py_str_or "" "Simulated transcription content." =
            "Simulated transcription content." from rfl]
        exact build_fake_segments_ne_nil words_per_seg _ (by decide)
    · have hred : orchestrate_sim words_per_seg originalFilename durationSec (Content.text s) =
          build_placeholder_segments durationSec s.utf8ByteSize 12 := by
        simp [orchestrate_sim, hext]
      rw [hred]
      intro h
      have hl := build_placeholder_segments_length durationSec s.utf8ByteSize 12
      rw [h] at hl
      simp at hl
  · intro o t ho
    rcases o with ⟨m, f, a⟩
    rcases ho with rfl | rfl | rfl
    · rfl
    · simp [transcribe_real_model]
    · simp [transcribe_real_model]
  · intro o t hm hf ha
    rcases o with ⟨m, f, a⟩
    simp only at hm hf
    subst hm
    subst hf
    simp [transcribe_real_model, ha]

/-- Witness for C1: the theorem applied to a concrete textual job and to a
concrete model-load failure. -/
theorem C1_witness :
    orchestrate_sim 8 (some "notes.txt") none (Content.text "hello world") ≠ []
    ∧ transcribe_real_model ⟨false, true, []⟩ 8 "hello world" =
        build_fake_segments 8 "hello world" :=
  ⟨(C1_orchestrator_degrades 8 (some "notes.txt") none).2.1 "hello world" (Or.inl (by decide)),
   (C1_orchestrator_degrades 8 (some "notes.txt") none).2.2.1 ⟨false, true, []⟩ "hello world"
     (Or.inl rfl)⟩
